import Mathlib

set_option maxRecDepth 100000

/-!
# A shallow embedding of the ENGLANG interpreter (src/englang.c)

This file models the execution engine of the ENGLANG interpreter: the
tokenizer, value resolution, the condition evaluator, the block resolver
(`find_end`), the function-table pre-pass (`collect_funcs`) and the statement
dispatcher (`exec_line` / `execute`).  Definitions follow the C source
line by line; the C line numbers are cited in the doc comments.

Modelling conventions:
* C `double` is modelled as `ℚ` (exact rationals).  Every computation the
  theorems below exercise stays inside the integer range where IEEE-754
  double arithmetic is exact, so the idealisation does not affect them.
  `%g` formatting is modelled exactly on the integral fragment used by the
  interpreter's own examples (see `fmt_g`); hex, `inf` and `nan` literal
  forms accepted by `strtod` are outside the modelled fragment.
* Fixed-size tables (`vars[512]`, `arrays[64]`, stack of 512, 1024 memory
  cells, 1024 array slots, 32 tokens of at most 63 characters) keep their
  capacities; slots are modelled as lists in allocation order, which is the
  order the C linear scans observe.
* `exit()` is modelled by an explicit `exited` result; unbounded loops and
  recursion are modelled with a fuel parameter (the host call stack in C).
* stdin is a list of pending lines, stdout/stderr are string accumulators.
-/

/- ──────────────────────── String helpers (englang.c:85-94) ──────────────────────── -/

/-- The character class of C `isspace` (space, \t, \n, \v, \f, \r). -/
def is_space_c (c : Char) : Bool :=
  c = ' ' ∨ c = '\t' ∨ c = '\n' ∨ c = '\x0b' ∨ c = '\x0c' ∨ c = '\r'

/-- `trim` (englang.c:85-90): strip leading and trailing `isspace` characters. -/
def trim (s : String) : String :=
  ⟨((s.data.dropWhile is_space_c).reverse.dropWhile is_space_c).reverse⟩

/-- `startswith` (englang.c:92-94): `strncmp(s, pre, strlen(pre)) == 0`. -/
def startswith (s pre : String) : Bool :=
  pre.data.isPrefixOf s.data

/-- Truncation to 255 characters, the capacity of the 256-byte string buffers. -/
def trunc255 (s : String) : String :=
  ⟨s.data.take 255⟩

/- ──────────────────────── Tokenizer (englang.c:336-363) ──────────────────────── -/

/-- One step of `tokenize`: consume up to `budget` more tokens (C: `count < max_tok`).
A token starting with `"` runs to the next `"` (kept, quotes included) or to the
end of the line if unterminated; any other token is a maximal run of
non-whitespace characters.  Stored tokens are truncated to 63 characters
(`MAX_NAME - 1`). -/
def tok_go : List Char → Nat → List String
  | _, 0 => []
  | cs, budget + 1 =>
    let cs := cs.dropWhile is_space_c
    match cs with
    | [] => []
    | '"' :: rest =>
      let inner := rest.takeWhile (fun c => ¬ c = '"')
      let rest2 := rest.drop inner.length
      match rest2 with
      | '"' :: r => (⟨(('"' :: inner) ++ ['"']).take 63⟩ : String) :: tok_go r budget
      | _ => (⟨('"' :: inner).take 63⟩ : String) :: tok_go rest2 budget
    | _ :: _ =>
      let run := cs.takeWhile (fun c => ¬ is_space_c c)
      (⟨run.take 63⟩ : String) :: tok_go (cs.drop run.length) budget

/-- `tokenize` (englang.c:336-363), with the caller's `max_tok = 32`. -/
def tokenize (line : String) : List String :=
  tok_go line.data 32

/-- Splitting on spaces and tabs only, as `strtok(s, " \t")` does
(englang.c:217-221).  The fuel argument is the character count, which always
suffices since every round consumes at least one character. -/
def split_go : Nat → List Char → List String
  | 0, _ => []
  | n + 1, cs =>
    let cs := cs.dropWhile (fun c => c = ' ' ∨ c = '\t')
    match cs with
    | [] => []
    | _ :: _ =>
      let w := cs.takeWhile (fun c => ¬ (c = ' ' ∨ c = '\t'))
      (⟨w⟩ : String) :: split_go n (cs.drop w.length)

/-- Word-splitting on `" \t"` used by the condition evaluator. -/
def split_st (s : String) : List String :=
  split_go s.data.length s.data

/-- Space-joining of a token list, the `if (i) strcat(buf, " ")` pattern used
to rebuild condition strings and operands (englang.c:233-236, 539-543, ...). -/
def join_sp : List String → String
  | [] => ""
  | [x] => x
  | x :: xs => x ++ (" " ++ join_sp xs)

/-- First index of a keyword in a token list (the `for` searches for `"is"`,
`"then"`, `"into"`, `"as"` ...). -/
def find_kw (kw : String) : List String → Option Nat
  | [] => none
  | t :: rest => if t = kw then some 0 else (find_kw kw rest).map (· + 1)

/- ──────────────────────── Value model (englang.c:37-44) ──────────────────────── -/

inductive VType where
  | num
  | str
deriving DecidableEq, Repr

/-- `Value` (englang.c:40-44).  The C struct carries all three fields at all
times; the tag only selects which one is read, and several statements update
one field while leaving a stale value in the other, which is observable.  The
struct is therefore modelled field by field. -/
structure Value where
  type : VType
  num : ℚ
  str : String
deriving DecidableEq, Repr

/-- The zero-initialised value every fresh slot carries. -/
def default_val : Value := { type := .num, num := 0, str := "" }

/- ──────────────────────── strtod / atof model ──────────────────────── -/

def is_digit (c : Char) : Bool := '0' ≤ c ∧ c ≤ '9'

def digit_val (c : Char) : Nat := c.toNat - 48

/-- Read a maximal run of decimal digits, returning (value, digit count, rest). -/
def read_digits_go (acc k : Nat) : List Char → Nat × Nat × List Char
  | [] => (acc, k, [])
  | c :: rest =>
    if is_digit c then read_digits_go (acc * 10 + digit_val c) (k + 1) rest
    else (acc, k, c :: rest)

/-- Shallow model of `strtod`: optional whitespace and sign, decimal digits
with optional fractional part and exponent.  Returns the parsed value and the
unconsumed rest; when no conversion is performed the rest is the whole input,
as `strtod` leaves `endptr` at `nptr`.  (Hex, `inf`/`nan` forms are outside
the modelled fragment; no claim exercises them.) -/
def strtod_parse (cs0 : List Char) : ℚ × List Char :=
  let cs1 := cs0.dropWhile is_space_c
  let sgncs : ℚ × List Char :=
    match cs1 with
    | '-' :: r => (-1, r)
    | '+' :: r => (1, r)
    | _ => (1, cs1)
  let sgn := sgncs.1
  let ipart := read_digits_go 0 0 sgncs.2
  let fpart :=
    match ipart.2.2 with
    | '.' :: r => read_digits_go 0 0 r
    | _ => (0, 0, ipart.2.2)
  if ipart.2.1 + fpart.2.1 = 0 then (0, cs0)
  else
    let mant : ℚ := (ipart.1 : ℚ) + (fpart.1 : ℚ) / ((10 : ℚ) ^ fpart.2.1)
    let expcs : Int × List Char :=
      match fpart.2.2 with
      | 'e' :: r =>
        (match r with
         | '-' :: r2 =>
           (match read_digits_go 0 0 r2 with
            | (xv, xc, r3) => if xc = 0 then (0, fpart.2.2) else (-(xv : Int), r3))
         | '+' :: r2 =>
           (match read_digits_go 0 0 r2 with
            | (xv, xc, r3) => if xc = 0 then (0, fpart.2.2) else ((xv : Int), r3))
         | _ =>
           (match read_digits_go 0 0 r with
            | (xv, xc, r3) => if xc = 0 then (0, fpart.2.2) else ((xv : Int), r3)))
      | 'E' :: r =>
        (match r with
         | '-' :: r2 =>
           (match read_digits_go 0 0 r2 with
            | (xv, xc, r3) => if xc = 0 then (0, fpart.2.2) else (-(xv : Int), r3))
         | '+' :: r2 =>
           (match read_digits_go 0 0 r2 with
            | (xv, xc, r3) => if xc = 0 then (0, fpart.2.2) else ((xv : Int), r3))
         | _ =>
           (match read_digits_go 0 0 r with
            | (xv, xc, r3) => if xc = 0 then (0, fpart.2.2) else ((xv : Int), r3)))
      | _ => (0, fpart.2.2)
    let scale : ℚ :=
      if 0 ≤ expcs.1 then (10 : ℚ) ^ expcs.1.toNat else 1 / ((10 : ℚ) ^ (-expcs.1).toNat)
    (sgn * mant * scale, expcs.2)

/-- Full-token numeric parse, the `strtod(token, &end); *end == '\0'` check of
`resolve` (englang.c:163-169).  Note that the empty string passes the check
(no conversion leaves `end` at the terminator) and yields 0, as in C. -/
def strtod_full (s : String) : Option ℚ :=
  let p := strtod_parse s.data
  if p.2 = [] then some p.1 else none

/-- `atof` (englang.c:790): numeric prefix value, 0 if none. -/
def atof_model (s : String) : ℚ :=
  (strtod_parse s.data).1

/-- The `*end == '\0' && end != input` check of `ask` (englang.c:518):
full parse that consumed at least one character. -/
def strtod_ask (s : String) : Option ℚ :=
  let p := strtod_parse s.data
  if p.2 = [] ∧ ¬ s.data = [] then some p.1 else none

/-- `%g` rendering of a number (englang.c:190, 801).  Modelled exactly on the
integral fragment `|n| < 10^6` (where `%g` prints the plain digits); other
values fall into a clearly-marked abstract rendering that no theorem below
evaluates. -/
def fmt_g (q : ℚ) : String :=
  if q.den = 1 ∧ -1000000 < q.num ∧ q.num < 1000000 then toString q.num
  else "approx:" ++ toString q.num ++ "/" ++ toString q.den

/-- C truncation-toward-zero cast of a double to an integer type. -/
def truncQ (q : ℚ) : Int :=
  if 0 ≤ q then ⌊q⌋ else ⌈q⌉

/- ──────────────────────── Variable store (englang.c:96-119) ──────────────────────── -/

/-- `find_var` (englang.c:97-102): first slot, in allocation order, whose name
matches. -/
def find_var : List (String × Value) → String → Option Value
  | [], _ => none
  | (n, v) :: rest, name => if n = name then some v else find_var rest name

/-- In-place update of the first matching slot. -/
def var_upd : List (String × Value) → String → (Value → Value) → List (String × Value)
  | [], _, _ => []
  | (n, v) :: rest, name, f =>
    if n = name then (n, f v) :: rest else (n, v) :: var_upd rest name f

/-- `get_or_create_var` (englang.c:104-119): reuse an existing slot, else
allocate a fresh zero-initialised one; `none` models the
`"Error: too many variables"`/`exit(1)` path when all 512 slots are used. -/
def get_or_create (vs : List (String × Value)) (name : String) :
    Option (List (String × Value)) :=
  match find_var vs name with
  | some _ => some vs
  | none => if vs.length < 512 then some (vs ++ [(name, default_val)]) else none

/- ──────────────────────── Value resolution (englang.c:144-194) ──────────────────────── -/

/-- `resolve` (englang.c:145-179): quoted literal, then numeric literal, then
variable, then the bare word itself as text.  (`token[0] == '"'` reads the
terminator on an empty token, hence the `'\x00'` default.) -/
def resolve (vars : List (String × Value)) (token : String) : Value :=
  if token.data.headD '\x00' = '"' then
    let n := token.data.length
    let inner : List Char := if n > 2 then (token.data.drop 1).take (n - 2) else []
    { type := .str, num := 0, str := ⟨inner.take 255⟩ }
  else
    match strtod_full token with
    | some d => { type := .num, num := d, str := "" }
    | none =>
      match find_var vars token with
      | some v => v
      | none => { type := .str, num := 0, str := ⟨token.data.take 255⟩ }

/-- `resolve_num` (englang.c:181-185): text coerces to 0. -/
def resolve_num (vars : List (String × Value)) (token : String) : ℚ :=
  let v := resolve vars token
  match v.type with
  | .str => 0
  | .num => v.num

/-- `resolve_str` (englang.c:187-194): numbers format with `%g`, text passes
through (copied into a 256-byte buffer). -/
def resolve_str (vars : List (String × Value)) (token : String) : String :=
  let v := resolve vars token
  match v.type with
  | .num => fmt_g v.num
  | .str => trunc255 v.str

/- ──────────────────────── Condition evaluator (englang.c:209-316) ──────────────────────── -/

/-- `eval_condition` (englang.c:209-316).  The condition string is trimmed and
split on spaces/tabs into at most 32 words; fewer than three words is false;
the first `is` splits lhs from the operator, an optional `not` negates; the
operator cascade is longest-match-first with the exact index bounds of the C
source (note `greater than`/`less than`/`equal to` demand a word after them). -/
def eval_condition (vars : List (String × Value)) (cond : String) : Bool :=
  let ws := (split_st (trim cond)).take 32
  let wc := ws.length
  let w := fun i => ws.getD i ""
  if wc < 3 then false
  else
    match find_kw "is" ws with
    | none => false
    | some is_idx =>
      let lhs := join_sp (ws.take is_idx)
      let negstart : Bool × Nat :=
        if is_idx + 1 < wc ∧ w (is_idx + 1) = "not" then (true, is_idx + 2)
        else (false, is_idx + 1)
      let neg := negstart.1
      let os := negstart.2
      let oprs : String × Nat :=
        if os + 3 < wc ∧ w os = "greater" ∧ w (os+1) = "than" ∧ w (os+2) = "or" ∧
           w (os+3) = "equal" ∧ os + 4 < wc ∧ w (os+4) = "to" then (">=", os + 5)
        else if os + 3 < wc ∧ w os = "less" ∧ w (os+1) = "than" ∧ w (os+2) = "or" ∧
           w (os+3) = "equal" ∧ os + 4 < wc ∧ w (os+4) = "to" then ("<=", os + 5)
        else if os + 2 < wc ∧ w os = "greater" ∧ w (os+1) = "than" then (">", os + 2)
        else if os + 2 < wc ∧ w os = "less" ∧ w (os+1) = "than" then ("<", os + 2)
        else if os + 2 < wc ∧ w os = "equal" ∧ w (os+1) = "to" then ("==", os + 2)
        else if os < wc ∧ w os = "empty" then ("empty", os + 1)
        else if os < wc ∧ w os = "zero" then ("zero", os + 1)
        else ("", os)
      let op := oprs.1
      let rhs := join_sp (ws.drop oprs.2)
      let res : Bool :=
        if op = "empty" then
          (let lv := resolve vars lhs
           decide (lv.type = .str ∧ lv.str = ""))
        else if op = "zero" then decide (resolve_num vars lhs = 0)
        else if op = ">" then decide (resolve_num vars rhs < resolve_num vars lhs)
        else if op = "<" then decide (resolve_num vars lhs < resolve_num vars rhs)
        else if op = ">=" then decide (resolve_num vars rhs ≤ resolve_num vars lhs)
        else if op = "<=" then decide (resolve_num vars lhs ≤ resolve_num vars rhs)
        else if op = "==" then
          (let lv := resolve vars lhs
           let rv := resolve vars rhs
           if lv.type = .str ∨ rv.type = .str then
             decide (resolve_str vars lhs = resolve_str vars rhs)
           else decide (lv.num = rv.num))
        else false
      if neg then ! res else res

/- ──────────────────────── Block resolver (englang.c:322-333) ──────────────────────── -/

/-- The scanning loop of `find_end`: `lc` is `line_count`, returned when the
block is never closed; depth rises on `if `/`while `/`repeat `/`define `
(note: not on `for `), falls on the end keyword or any `end ` line. -/
def fe_scan (lc : Nat) (kw : String) : List String → Nat → Nat → Nat
  | [], _, _ => lc
  | l :: rest, i, depth =>
    let t := trim l
    let d1 :=
      if startswith t "if " ∨ startswith t "while " ∨ startswith t "repeat " ∨
         startswith t "define " then depth + 1 else depth
    let d2 := if startswith t kw ∨ startswith t "end " then d1 - 1 else d1
    if d2 = 0 then i else fe_scan lc kw rest (i + 1) d2

/-- `find_end` (englang.c:322-333). -/
def find_end (prog : List String) (here : Nat) (kw : String) : Nat :=
  fe_scan prog.length kw (prog.drop (here + 1)) (here + 1) 1

example : find_end ["if x is zero then", "print x", "end if"] 0 "end if" = 2 := by decide
example : find_end ["if a is zero then", "if b is zero then", "end if", "end if", "print done"]
    0 "end if" = 3 := by decide
example : find_end ["while x is zero then", "print x"] 0 "end while" = 2 := by decide

/- ──────────────────────── Function table (englang.c:61-68, 196-202) ──────────────────────── -/

/-- `FuncDef` (englang.c:62-68): body is `[start_line, end_line)`,
`end_line` is the index of the matching `end define`. -/
structure FuncDef where
  name : String
  start_line : Nat
  end_line : Nat
  params : List String
deriving DecidableEq, Repr

/-- `find_func` (englang.c:197-202): first entry in registration order wins. -/
def find_func : List FuncDef → String → Option FuncDef
  | [], _ => none
  | f :: rest, name => if f.name = name then some f else find_func rest name

/-- Parsing of a `define` head line into a `FuncDef`, shared verbatim by the
pre-pass (englang.c:838-853) and the run-time `define` branch
(englang.c:624-641): the first `as` at index ≥ 2 ends the parameter list,
which starts after `with` when present (at index 2 otherwise — parameters
need no `with` keyword), capped at 8 entries. -/
def parse_def (tok : List String) (idx e : Nat) : FuncDef :=
  match (find_kw "as" (tok.drop 2)).map (· + 2) with
  | none => { name := tok.getD 1 "", start_line := idx + 1, end_line := e, params := [] }
  | some ai =>
    let ps := if 2 < tok.length ∧ tok.getD 2 "" = "with" then 3 else 2
    { name := tok.getD 1 "", start_line := idx + 1, end_line := e,
      params := ((tok.drop ps).take (ai - ps)).take 8 }

/- ──────────────────────── Interpreter state ──────────────────────── -/

/-- The interpreter's global state (englang.c:70-82).  `vars`/`arrays` are the
slot tables in allocation order; `stack` holds the data stack with its top at
the head; `mem` records memory writes newest-first (unwritten addresses read
as 0, matching the zero-initialised `mem[MAX_MEM]`); `input` is the pending
stdin lines; `output`/`errput` accumulate stdout/stderr. -/
structure State where
  vars : List (String × Value)
  arrays : List (String × List Value)
  funcs : List FuncDef
  stack : List ℚ
  mem : List (Nat × ℚ)
  input : List String
  output : String
  errput : String
deriving DecidableEq, Repr

/-- Result of executing one line: continue at index `i`, or the process
called `exit(code)`, or the modelling fuel ran out. -/
inductive StepRes where
  | next (i : Nat) (s : State)
  | exited (code : Nat) (s : State)
  | nofuel
deriving DecidableEq, Repr

/-- Result of executing a line range. -/
inductive RunRes where
  | done (s : State)
  | exited (code : Nat) (s : State)
  | nofuel
deriving DecidableEq, Repr

/-- The trimmed text of program line `idx` (every consumer of `lines[i]`
copies and trims it first). -/
def line_at (prog : List String) (idx : Nat) : String :=
  trim (prog.getD idx "")

/- ──────────────────────── Array store (englang.c:121-142) ──────────────────────── -/

def find_array : List (String × List Value) → String → Option (List Value)
  | [], _ => none
  | (n, d) :: rest, name => if n = name then some d else find_array rest name

def arr_upd : List (String × List Value) → String → (List Value → List Value) →
    List (String × List Value)
  | [], _, _ => []
  | (n, d) :: rest, name, f =>
    if n = name then (n, f d) :: rest else (n, d) :: arr_upd rest name f

/-- `get_or_create_array` (englang.c:129-142); `none` models the
`"Error: too many arrays"`/`exit(1)` path when all 64 slots are used. -/
def get_or_create_arr (ars : List (String × List Value)) (name : String) :
    Option (List (String × List Value)) :=
  match find_array ars name with
  | some _ => some ars
  | none => if ars.length < 64 then some (ars ++ [(name, [])]) else none

/-- `a->data[i] = v` with logical-size extension (englang.c:739-741): slots
between the old size and `i` stay at their zero-initialised default. -/
def arr_set (data : List Value) (i : Nat) (v : Value) : List Value :=
  if i < data.length then data.set i v
  else data ++ List.replicate (i - data.length) default_val ++ [v]

/- ──────────────────────── Memory (englang.c:75, 688-704) ──────────────────────── -/

def mem_find : List (Nat × ℚ) → Nat → ℚ
  | [], _ => 0
  | (k, x) :: rest, a => if k = a then x else mem_find rest a

/- ──────────────────────── Math abstractions ──────────────────────── -/

/-- Modelled abstraction of C `pow` (englang.c:411): exact for integer
exponents; non-integer exponents fall outside the modelled fragment (no claim
exercises `power`). -/
def powQ (b e : ℚ) : ℚ :=
  if e.den = 1 then (if 0 ≤ e.num then b ^ e.num.toNat else 1 / b ^ (-e.num).toNat) else 0

/-- Modelled abstraction of C `sqrt` (englang.c:761): exact on perfect-square
rationals, 0 elsewhere (no claim exercises non-square inputs). -/
def sqrtQ (q : ℚ) : ℚ :=
  if 0 ≤ q ∧ Nat.sqrt q.num.toNat * Nat.sqrt q.num.toNat = q.num.toNat ∧
     Nat.sqrt q.den * Nat.sqrt q.den = q.den
  then (Nat.sqrt q.num.toNat : ℚ) / (Nat.sqrt q.den : ℚ) else 0

/- ──────────────────────── Statement handlers (englang.c:366-819) ──────────────────────── -/

/-- The `"Error: too many variables"`/`exit(1)` path (englang.c:117-118). -/
def fatal_vars (s : State) : StepRes :=
  .exited 1 { s with errput := s.errput ++ "Error: too many variables\n" }

/-- The `"Error: too many arrays"`/`exit(1)` path (englang.c:140-141). -/
def fatal_arrays (s : State) : StepRes :=
  .exited 1 { s with errput := s.errput ++ "Error: too many arrays\n" }

/-- Unknown-instruction diagnostic (englang.c:817). -/
def unknown_line (idx : Nat) (s : State) (line : String) : StepRes :=
  .next (idx + 1)
    { s with errput := s.errput ++
        ("Warning: unknown instruction on line " ++ toString (idx + 1) ++
         ": \x27" ++ line ++ "\x27\n") }

/-- `set <var> to <value>` with the optional single binary operator
(englang.c:379-422).  The target slot is created first; `val` starts as
`resolve(tok[3])` and an operator branch overwrites the `type`/`num` (or
`type`/`str`) fields, leaving the other field from `resolve(tok[3])`. -/
def exec_set (idx : Nat) (s : State) (tok : List String) : StepRes :=
  match get_or_create s.vars (tok.getD 1 "") with
  | none => fatal_vars s
  | some vs1 =>
    let tc := tok.length
    let val0 := resolve vs1 (tok.getD 3 "")
    let val :=
      if 4 < tc then
        if tok.getD 4 "" = "plus" ∧ 6 ≤ tc then
          let x := resolve_num vs1 (tok.getD 3 "") + resolve_num vs1 (tok.getD 5 "")
          { val0 with type := .num, num := x }
        else if tok.getD 4 "" = "minus" ∧ 6 ≤ tc then
          let x := resolve_num vs1 (tok.getD 3 "") - resolve_num vs1 (tok.getD 5 "")
          { val0 with type := .num, num := x }
        else if tok.getD 4 "" = "times" ∧ 6 ≤ tc then
          let x := resolve_num vs1 (tok.getD 3 "") * resolve_num vs1 (tok.getD 5 "")
          { val0 with type := .num, num := x }
        else if tok.getD 4 "" = "divided" ∧ 7 ≤ tc ∧ tok.getD 5 "" = "by" then
          let d := resolve_num vs1 (tok.getD 6 "")
          let x := if ¬ d = 0 then resolve_num vs1 (tok.getD 3 "") / d else 0
          { val0 with type := .num, num := x }
        else if tok.getD 4 "" = "modulo" ∧ 6 ≤ tc then
          let a1 := truncQ (resolve_num vs1 (tok.getD 3 ""))
          let b1 := truncQ (resolve_num vs1 (tok.getD 5 ""))
          let x : ℚ := if ¬ b1 = 0 then ((Int.tmod a1 b1 : Int) : ℚ) else 0
          { val0 with type := .num, num := x }
        else if tok.getD 4 "" = "power" ∧ 6 ≤ tc then
          let x := powQ (resolve_num vs1 (tok.getD 3 "")) (resolve_num vs1 (tok.getD 5 ""))
          { val0 with type := .num, num := x }
        else if tok.getD 4 "" = "concatenated" ∧ 7 ≤ tc ∧ tok.getD 5 "" = "with" then
          let y := trunc255 (resolve_str vs1 (tok.getD 3 "") ++ resolve_str vs1 (tok.getD 6 ""))
          { val0 with type := .str, str := y }
        else val0
      else val0
    .next (idx + 1) { s with vars := var_upd vs1 (tok.getD 1 "") (fun _ => val) }

/-- `add <a> and <b> into <r>` (englang.c:425-430): target created, its type
set to number, then the operands resolved and the sum stored. -/
def exec_add (idx : Nat) (s : State) (tok : List String) : StepRes :=
  match get_or_create s.vars (tok.getD 5 "") with
  | none => fatal_vars s
  | some vs1 =>
    let vs2 := var_upd vs1 (tok.getD 5 "") (fun v => { v with type := .num })
    let x := resolve_num vs2 (tok.getD 1 "") + resolve_num vs2 (tok.getD 3 "")
    .next (idx + 1) { s with vars := var_upd vs2 (tok.getD 5 "") (fun v => { v with num := x }) }

/-- `subtract <a> from <b> into <r>` stores `b - a` (englang.c:433-438). -/
def exec_subtract (idx : Nat) (s : State) (tok : List String) : StepRes :=
  match get_or_create s.vars (tok.getD 5 "") with
  | none => fatal_vars s
  | some vs1 =>
    let vs2 := var_upd vs1 (tok.getD 5 "") (fun v => { v with type := .num })
    let x := resolve_num vs2 (tok.getD 3 "") - resolve_num vs2 (tok.getD 1 "")
    .next (idx + 1) { s with vars := var_upd vs2 (tok.getD 5 "") (fun v => { v with num := x }) }

/-- `multiply <a> by <b> into <r>` (englang.c:441-446). -/
def exec_multiply (idx : Nat) (s : State) (tok : List String) : StepRes :=
  match get_or_create s.vars (tok.getD 5 "") with
  | none => fatal_vars s
  | some vs1 =>
    let vs2 := var_upd vs1 (tok.getD 5 "") (fun v => { v with type := .num })
    let x := resolve_num vs2 (tok.getD 1 "") * resolve_num vs2 (tok.getD 3 "")
    .next (idx + 1) { s with vars := var_upd vs2 (tok.getD 5 "") (fun v => { v with num := x }) }

/-- `divide <a> by <b> into <r>` (englang.c:449-455): the divisor is resolved
first; a zero divisor yields the defined result 0 with no diagnostic. -/
def exec_divide (idx : Nat) (s : State) (tok : List String) : StepRes :=
  match get_or_create s.vars (tok.getD 5 "") with
  | none => fatal_vars s
  | some vs1 =>
    let d := resolve_num vs1 (tok.getD 3 "")
    let vs2 := var_upd vs1 (tok.getD 5 "") (fun v => { v with type := .num })
    let x := if ¬ d = 0 then resolve_num vs2 (tok.getD 1 "") / d else 0
    .next (idx + 1) { s with vars := var_upd vs2 (tok.getD 5 "") (fun v => { v with num := x }) }

/-- `increment <var> [by <n>]` (englang.c:458-464); the `num` field is bumped
even when the stored value was text (stale-field semantics of the C struct). -/
def exec_increment (idx : Nat) (s : State) (tok : List String) : StepRes :=
  match get_or_create s.vars (tok.getD 1 "") with
  | none => fatal_vars s
  | some vs1 =>
    let by1 := if 4 ≤ tok.length ∧ tok.getD 2 "" = "by" then resolve_num vs1 (tok.getD 3 "") else 1
    .next (idx + 1)
      { s with vars := var_upd vs1 (tok.getD 1 "") (fun v => { v with type := .num, num := v.num + by1 }) }

/-- `decrement <var> [by <n>]` (englang.c:467-473). -/
def exec_decrement (idx : Nat) (s : State) (tok : List String) : StepRes :=
  match get_or_create s.vars (tok.getD 1 "") with
  | none => fatal_vars s
  | some vs1 =>
    let by1 := if 4 ≤ tok.length ∧ tok.getD 2 "" = "by" then resolve_num vs1 (tok.getD 3 "") else 1
    .next (idx + 1)
      { s with vars := var_upd vs1 (tok.getD 1 "") (fun v => { v with type := .num, num := v.num - by1 }) }

/-- The output-building loop of `print` (englang.c:478-486): tokens equal to
the literal word `and` are skipped; a single space separates emissions, with
the `first` flag suppressing the leading separator. -/
def print_join (vars : List (String × Value)) : List String → Bool → String
  | [], _ => ""
  | t :: rest, first =>
    if t = "and" then print_join vars rest first
    else (if first then "" else " ") ++ (resolve_str vars t ++ print_join vars rest false)

/-- The output-building loop of `say` (englang.c:491-497): every token
(skipping literal `and`) is emitted followed by a space. -/
def say_join (vars : List (String × Value)) : List String → String
  | [] => ""
  | t :: rest =>
    if t = "and" then say_join vars rest
    else resolve_str vars t ++ (" " ++ say_join vars rest)

/-- `print ...` (englang.c:476-488). -/
def exec_print (idx : Nat) (s : State) (tok : List String) : StepRes :=
  .next (idx + 1) { s with output := s.output ++ (print_join s.vars (tok.drop 1) true ++ "\n") }

/-- `say ...` (englang.c:491-499). -/
def exec_say (idx : Nat) (s : State) (tok : List String) : StepRes :=
  .next (idx + 1) { s with output := s.output ++ (say_join s.vars (tok.drop 1) ++ "\n") }

/-- `ask <prompt> into <var>` (englang.c:502-528).  Without an `into` keyword
followed by a target token, nothing at all happens.  Otherwise the prompt and
a space are printed, one line is read (if stdin is not exhausted), and the
target receives a number on a full numeric parse that consumed at least one
character, else the raw text. -/
def exec_ask (idx : Nat) (s : State) (tok : List String) : StepRes :=
  match find_kw "into" (tok.drop 1) with
  | none => .next (idx + 1) s
  | some j =>
    if j + 2 < tok.length then
      let s1 := { s with output := s.output ++ (resolve_str s.vars (tok.getD 1 "") ++ " ") }
      match s1.input with
      | [] => .next (idx + 1) s1
      | inline :: rest =>
        let inline := trunc255 inline
        let s2 := { s1 with input := rest }
        match get_or_create s2.vars (tok.getD (j + 2) "") with
        | none => fatal_vars s2
        | some vs1 =>
          let vs2 :=
            match strtod_ask inline with
            | some d => var_upd vs1 (tok.getD (j + 2) "") (fun v => { v with type := .num, num := d })
            | none => var_upd vs1 (tok.getD (j + 2) "") (fun v => { v with type := .str, str := inline })
          .next (idx + 1) { s2 with vars := vs2 }
    else .next (idx + 1) s

/-- `return <value>` (englang.c:665-669): writes the global variable named
`return`. -/
def exec_return (idx : Nat) (s : State) (tok : List String) : StepRes :=
  match get_or_create s.vars "return" with
  | none => fatal_vars s
  | some vs1 =>
    .next (idx + 1) { s with vars := var_upd vs1 "return" (fun _ => resolve vs1 (tok.getD 1 "")) }

/-- `push <val> onto stack` (englang.c:672-676): silent no-op at capacity 512. -/
def exec_push (idx : Nat) (s : State) (tok : List String) : StepRes :=
  .next (idx + 1)
    (if s.stack.length < 512 then { s with stack := resolve_num s.vars (tok.getD 1 "") :: s.stack }
     else s)

/-- `pop from stack into <var>` (englang.c:679-685): 0 when empty. -/
def exec_pop (idx : Nat) (s : State) (tok : List String) : StepRes :=
  match get_or_create s.vars (tok.getD 4 "") with
  | none => fatal_vars s
  | some vs1 =>
    let p : ℚ × List ℚ := match s.stack with | [] => (0, []) | x :: rest => (x, rest)
    .next (idx + 1)
      { s with vars := var_upd vs1 (tok.getD 4 "") (fun v => { v with type := .num, num := p.1 }),
               stack := p.2 }

/-- `store <val> at address <n>` (englang.c:688-694): out-of-range silently
ignored. -/
def exec_store (idx : Nat) (s : State) (tok : List String) : StepRes :=
  let addr := truncQ (resolve_num s.vars (tok.getD 4 ""))
  if 0 ≤ addr ∧ addr < 1024 then
    .next (idx + 1) { s with mem := (addr.toNat, resolve_num s.vars (tok.getD 1 "")) :: s.mem }
  else .next (idx + 1) s

/-- `load from address <n> into <var>` (englang.c:697-704): out-of-range reads 0. -/
def exec_load (idx : Nat) (s : State) (tok : List String) : StepRes :=
  let addr := truncQ (resolve_num s.vars (tok.getD 3 ""))
  match get_or_create s.vars (tok.getD 5 "") with
  | none => fatal_vars s
  | some vs1 =>
    let x := if 0 ≤ addr ∧ addr < 1024 then mem_find s.mem addr.toNat else 0
    .next (idx + 1)
      { s with vars := var_upd vs1 (tok.getD 5 "") (fun v => { v with type := .num, num := x }) }

/-- `create array <name>` (englang.c:707-710). -/
def exec_create (idx : Nat) (s : State) (tok : List String) : StepRes :=
  match get_or_create_arr s.arrays (tok.getD 2 "") with
  | none => fatal_arrays s
  | some ars => .next (idx + 1) { s with arrays := ars }

/-- `append <val> to array <name>` (englang.c:713-720): when the array already
holds `MAX_ARRAY_SIZE` (1024) elements the append is a silent no-op. -/
def exec_append (idx : Nat) (s : State) (tok : List String) : StepRes :=
  match get_or_create_arr s.arrays (tok.getD 4 "") with
  | none => fatal_arrays s
  | some ars1 =>
    let cur := (find_array ars1 (tok.getD 4 "")).getD []
    if cur.length < 1024 then
      let ars2 := arr_upd ars1 (tok.getD 4 "") (fun d => d ++ [resolve s.vars (tok.getD 1 "")])
      .next (idx + 1) { s with arrays := ars2 }
    else .next (idx + 1) { s with arrays := ars1 }

/-- `get element <i> of array <name> into <var>` (englang.c:723-732).
(When exactly 7 tokens are present the C reads the uninitialised `tok[7]`;
the model reads the empty token there.) -/
def exec_get (idx : Nat) (s : State) (tok : List String) : StepRes :=
  let i := truncQ (resolve_num s.vars (tok.getD 2 ""))
  let arrq := find_array s.arrays (tok.getD 5 "")
  match get_or_create s.vars (tok.getD 7 "") with
  | none => fatal_vars s
  | some vs1 =>
    let upd : Value → Value :=
      match arrq with
      | some data =>
        if 0 ≤ i ∧ i < (data.length : Int) then (fun _ => data.getD i.toNat default_val)
        else (fun v => { v with type := .num, num := 0 })
      | none => (fun v => { v with type := .num, num := 0 })
    .next (idx + 1) { s with vars := var_upd vs1 (tok.getD 7 "") upd }

/-- `set element <i> of array <name> to <val>` (englang.c:735-744): in-bounds
writes extend the logical size to `i+1`.  (Token 7 is the same uninitialised
read as in `exec_get` when only 7 tokens are present.) -/
def exec_set_elem (idx : Nat) (s : State) (tok : List String) : StepRes :=
  let i := truncQ (resolve_num s.vars (tok.getD 2 ""))
  match get_or_create_arr s.arrays (tok.getD 5 "") with
  | none => fatal_arrays s
  | some ars1 =>
    if 0 ≤ i ∧ i < 1024 then
      let ars2 := arr_upd ars1 (tok.getD 5 "")
        (fun d => arr_set d i.toNat (resolve s.vars (tok.getD 7 "")))
      .next (idx + 1) { s with arrays := ars2 }
    else .next (idx + 1) { s with arrays := ars1 }

/-- `size of array <name> into <var>` (englang.c:747-754). -/
def exec_size (idx : Nat) (s : State) (tok : List String) : StepRes :=
  let arrq := find_array s.arrays (tok.getD 3 "")
  match get_or_create s.vars (tok.getD 5 "") with
  | none => fatal_vars s
  | some vs1 =>
    let n : ℚ := match arrq with | some d => (d.length : ℚ) | none => 0
    .next (idx + 1)
      { s with vars := var_upd vs1 (tok.getD 5 "") (fun v => { v with type := .num, num := n }) }

/-- `square root of <val> into <var>` (englang.c:757-763). -/
def exec_sqrt (idx : Nat) (s : State) (tok : List String) : StepRes :=
  match get_or_create s.vars (tok.getD 5 "") with
  | none => fatal_vars s
  | some vs1 =>
    let vs2 := var_upd vs1 (tok.getD 5 "") (fun v => { v with type := .num })
    let x := sqrtQ (resolve_num vs2 (tok.getD 3 ""))
    .next (idx + 1) { s with vars := var_upd vs2 (tok.getD 5 "") (fun v => { v with num := x }) }

/-- `absolute value of <val> into <var>` (englang.c:766-772). -/
def exec_abs (idx : Nat) (s : State) (tok : List String) : StepRes :=
  match get_or_create s.vars (tok.getD 5 "") with
  | none => fatal_vars s
  | some vs1 =>
    let vs2 := var_upd vs1 (tok.getD 5 "") (fun v => { v with type := .num })
    let x := abs (resolve_num vs2 (tok.getD 3 ""))
    .next (idx + 1) { s with vars := var_upd vs2 (tok.getD 5 "") (fun v => { v with num := x }) }

/-- `length of <val> into <var>` (englang.c:775-783): length of the resolved
display text (byte length in C, character length here; the modelled fragment
is ASCII). -/
def exec_length (idx : Nat) (s : State) (tok : List String) : StepRes :=
  let x : ℚ := ((resolve_str s.vars (tok.getD 2 "")).length : ℚ)
  match get_or_create s.vars (tok.getD 4 "") with
  | none => fatal_vars s
  | some vs1 =>
    .next (idx + 1)
      { s with vars := var_upd vs1 (tok.getD 4 "") (fun v => { v with type := .num, num := x }) }

/-- `convert <var> to number` (englang.c:786-794): `atof` on the text, no-op
on numbers. -/
def exec_conv_num (idx : Nat) (s : State) (tok : List String) : StepRes :=
  match get_or_create s.vars (tok.getD 1 "") with
  | none => fatal_vars s
  | some vs1 =>
    let vs2 := var_upd vs1 (tok.getD 1 "")
      (fun v => if v.type = .str then { v with type := .num, num := atof_model v.str } else v)
    .next (idx + 1) { s with vars := vs2 }

/-- `convert <var> to string` (englang.c:797-805): `%g` rendering, no-op on
text. -/
def exec_conv_str (idx : Nat) (s : State) (tok : List String) : StepRes :=
  match get_or_create s.vars (tok.getD 1 "") with
  | none => fatal_vars s
  | some vs1 =>
    let vs2 := var_upd vs1 (tok.getD 1 "")
      (fun v => if v.type = .num then { v with type := .str, str := fmt_g v.num } else v)
    .next (idx + 1) { s with vars := vs2 }

/-- `define` at run time (englang.c:622-644): appends a fresh entry to the
function table (`funcs[func_count++]`, no presence check) and skips to just
past the matched `end define`. -/
def exec_define (prog : List String) (idx : Nat) (s : State) (tok : List String) : StepRes :=
  let e := find_end prog idx "end define"
  .next (e + 1) { s with funcs := s.funcs ++ [parse_def tok idx e] }

/-- The parameter-binding loop of `call` (englang.c:656-659): positional,
stopping at whichever of the parameter or argument list ends first; each
binding resolves against the table it just extended.  `.error` carries the
table at the moment the variable slots ran out. -/
def bind_params : List String → List String → List (String × Value) →
    Except (List (String × Value)) (List (String × Value))
  | [], _, vs => .ok vs
  | _, [], vs => .ok vs
  | p :: ps, a1 :: args, vs =>
    match get_or_create vs p with
    | none => .error vs
    | some vs1 => bind_params ps args (var_upd vs1 p (fun _ => resolve vs1 a1))

/-- The `otherwise` scan of `if` (englang.c:547-555): first `otherwise` line
at nesting depth 1 strictly between the `if` line and its `end if`; the fuel
argument is the scan width `end_if - (idx+1)`. -/
def find_ow (prog : List String) : Nat → Nat → Nat → Option Nat
  | 0, _, _ => none
  | k + 1, i, depth =>
    let t := line_at prog i
    let d1 :=
      if startswith t "if " ∨ startswith t "while " ∨ startswith t "repeat " ∨
         startswith t "define " then depth + 1 else depth
    let d2 := if startswith t "end " then d1 - 1 else d1
    if d2 = 1 ∧ startswith t "otherwise" = true then some i
    else find_ow prog k (i + 1) d2

/- ──────────────────────── The executor (englang.c:366-828) ──────────────────────── -/

mutual

/-- `execute(start, end_excl)` (englang.c:822-828). -/
def execute : Nat → List String → Nat → Nat → State → RunRes
  | 0, _, _, _, _ => .nofuel
  | fuel + 1, prog, i, e, s =>
    if i < e ∧ i < prog.length then
      match exec_line fuel prog i s with
      | .next j s1 => execute fuel prog j e s1
      | .exited c s1 => .exited c s1
      | .nofuel => .nofuel
    else .done s
termination_by structural fuel => fuel

/-- `exec_line` (englang.c:366-819): trim, skip blanks and comments, tokenize,
and dispatch on the statement form.  The C source tests the forms in one
if-chain; every form is keyed by its distinct first token (with `set` and
`convert` carrying two shapes each), so the dispatch is written as a match on
the first token with the same shape guards in the same order. -/
def exec_line : Nat → List String → Nat → State → StepRes
  | 0, _, _, _ => .nofuel
  | fuel + 1, prog, idx, s =>
    let line := line_at prog idx
    if line = "" ∨ startswith line "#" = true ∨ startswith line "//" = true then
      .next (idx + 1) s
    else
      match tokenize line with
      | [] => .next (idx + 1) s
      | t0 :: tr =>
        let tok := t0 :: tr
        let tc := tok.length
        match t0 with
        | "set" =>
          if 4 ≤ tc ∧ tok.getD 2 "" = "to" then exec_set idx s tok
          else if 7 ≤ tc ∧ tok.getD 1 "" = "element" ∧ tok.getD 3 "" = "of" ∧
              tok.getD 4 "" = "array" ∧ tok.getD 6 "" = "to" then exec_set_elem idx s tok
          else unknown_line idx s line
        | "add" =>
          if 5 ≤ tc ∧ tok.getD 2 "" = "and" ∧ tok.getD 4 "" = "into" ∧ 6 ≤ tc then
            exec_add idx s tok
          else unknown_line idx s line
        | "subtract" =>
          if 6 ≤ tc ∧ tok.getD 2 "" = "from" ∧ tok.getD 4 "" = "into" then
            exec_subtract idx s tok
          else unknown_line idx s line
        | "multiply" =>
          if 6 ≤ tc ∧ tok.getD 2 "" = "by" ∧ tok.getD 4 "" = "into" then
            exec_multiply idx s tok
          else unknown_line idx s line
        | "divide" =>
          if 6 ≤ tc ∧ tok.getD 2 "" = "by" ∧ tok.getD 4 "" = "into" then
            exec_divide idx s tok
          else unknown_line idx s line
        | "increment" =>
          if 2 ≤ tc then exec_increment idx s tok else unknown_line idx s line
        | "decrement" =>
          if 2 ≤ tc then exec_decrement idx s tok else unknown_line idx s line
        | "print" => exec_print idx s tok
        | "say" => exec_say idx s tok
        | "ask" =>
          if 4 ≤ tc then exec_ask idx s tok else unknown_line idx s line
        | "if" =>
          (match find_kw "then" tr with
           | none => .next (idx + 1) s
           | some j =>
             let cond := join_sp (tr.take j)
             let end_if := find_end prog idx "end if"
             let ow := find_ow prog (end_if - (idx + 1)) (idx + 1) 1
             if eval_condition s.vars cond then
               match execute fuel prog (idx + 1) (ow.getD end_if) s with
               | .done s1 => .next (end_if + 1) s1
               | .exited c s1 => .exited c s1
               | .nofuel => .nofuel
             else
               match ow with
               | some o =>
                 (match execute fuel prog (o + 1) end_if s with
                  | .done s1 => .next (end_if + 1) s1
                  | .exited c s1 => .exited c s1
                  | .nofuel => .nofuel)
               | none => .next (end_if + 1) s)
        | "while" =>
          (match find_kw "then" tr with
           | none => .next (idx + 1) s
           | some j =>
             let cond := join_sp (tr.take j)
             let e := find_end prog idx "end while"
             match while_loop fuel prog cond (idx + 1) e s with
             | .done s1 => .next (e + 1) s1
             | .exited c s1 => .exited c s1
             | .nofuel => .nofuel)
        | "repeat" =>
          if 3 ≤ tc ∧ tok.getD 2 "" = "times" then
            let n := truncQ (resolve_num s.vars (tok.getD 1 ""))
            let e := find_end prog idx "end repeat"
            match repeat_loop fuel prog n.toNat (idx + 1) e s with
            | .done s1 => .next (e + 1) s1
            | .exited c s1 => .exited c s1
            | .nofuel => .nofuel
          else unknown_line idx s line
        | "for" =>
          if 6 ≤ tc ∧ tok.getD 2 "" = "from" ∧ tok.getD 4 "" = "to" then
            let fromv := resolve_num s.vars (tok.getD 3 "")
            let tov := resolve_num s.vars (tok.getD 5 "")
            let stepv :=
              if 9 ≤ tc ∧ tok.getD 6 "" = "step" then resolve_num s.vars (tok.getD 7 "") else 1
            let e := find_end prog idx "end for"
            match get_or_create s.vars (tok.getD 1 "") with
            | none => fatal_vars s
            | some vs1 =>
              let s1 := { s with vars := var_upd vs1 (tok.getD 1 "") (fun v => { v with type := .num }) }
              match for_loop fuel prog (tok.getD 1 "") fromv tov stepv (idx + 1) e s1 with
              | .done s2 => .next (e + 1) s2
              | .exited c s2 => .exited c s2
              | .nofuel => .nofuel
          else unknown_line idx s line
        | "define" =>
          if 3 ≤ tc then exec_define prog idx s tok else unknown_line idx s line
        | "call" =>
          if 2 ≤ tc then
            match find_func s.funcs (tok.getD 1 "") with
            | none =>
              .next (idx + 1)
                { s with errput := s.errput ++
                    ("Error: undefined function \x27" ++ tok.getD 1 "" ++ "\x27\n") }
            | some f =>
              let args := if 2 < tc ∧ tok.getD 2 "" = "with" then tok.drop 3 else tok.drop 2
              match bind_params f.params args s.vars with
              | .error vs1 =>
                .exited 1 { s with vars := vs1, errput := s.errput ++ "Error: too many variables\n" }
              | .ok vs1 =>
                match execute fuel prog f.start_line f.end_line { s with vars := vs1 } with
                | .done s1 => .next (idx + 1) s1
                | .exited c s1 => .exited c s1
                | .nofuel => .nofuel
          else unknown_line idx s line
        | "return" =>
          if 2 ≤ tc then exec_return idx s tok else unknown_line idx s line
        | "push" =>
          if 4 ≤ tc ∧ tok.getD 2 "" = "onto" ∧ tok.getD 3 "" = "stack" then exec_push idx s tok
          else unknown_line idx s line
        | "pop" =>
          if 5 ≤ tc ∧ tok.getD 1 "" = "from" ∧ tok.getD 2 "" = "stack" ∧ tok.getD 3 "" = "into" then
            exec_pop idx s tok
          else unknown_line idx s line
        | "store" =>
          if 5 ≤ tc ∧ tok.getD 2 "" = "at" ∧ tok.getD 3 "" = "address" then exec_store idx s tok
          else unknown_line idx s line
        | "load" =>
          if 6 ≤ tc ∧ tok.getD 1 "" = "from" ∧ tok.getD 2 "" = "address" ∧ tok.getD 4 "" = "into" then
            exec_load idx s tok
          else unknown_line idx s line
        | "create" =>
          if 3 ≤ tc ∧ tok.getD 1 "" = "array" then exec_create idx s tok
          else unknown_line idx s line
        | "append" =>
          if 5 ≤ tc ∧ tok.getD 2 "" = "to" ∧ tok.getD 3 "" = "array" then exec_append idx s tok
          else unknown_line idx s line
        | "get" =>
          if 7 ≤ tc ∧ tok.getD 1 "" = "element" ∧ tok.getD 3 "" = "of" ∧
             tok.getD 4 "" = "array" ∧ tok.getD 6 "" = "into" then exec_get idx s tok
          else unknown_line idx s line
        | "size" =>
          if 5 ≤ tc ∧ tok.getD 1 "" = "of" ∧ tok.getD 2 "" = "array" ∧ tok.getD 4 "" = "into" then
            exec_size idx s tok
          else unknown_line idx s line
        | "square" =>
          if 6 ≤ tc ∧ tok.getD 1 "" = "root" ∧ tok.getD 2 "" = "of" ∧ tok.getD 4 "" = "into" then
            exec_sqrt idx s tok
          else unknown_line idx s line
        | "absolute" =>
          if 6 ≤ tc ∧ tok.getD 1 "" = "value" ∧ tok.getD 2 "" = "of" ∧ tok.getD 4 "" = "into" then
            exec_abs idx s tok
          else unknown_line idx s line
        | "length" =>
          if 5 ≤ tc ∧ tok.getD 1 "" = "of" ∧ tok.getD 3 "" = "into" then exec_length idx s tok
          else unknown_line idx s line
        | "convert" =>
          if 4 ≤ tc ∧ tok.getD 2 "" = "to" ∧ tok.getD 3 "" = "number" then exec_conv_num idx s tok
          else if 4 ≤ tc ∧ tok.getD 2 "" = "to" ∧ tok.getD 3 "" = "string" then exec_conv_str idx s tok
          else unknown_line idx s line
        | "stop" => .exited 0 s
        | "exit" => .exited 0 s
        | _ =>
          if t0 = "otherwise" ∨ startswith t0 "end" = true then .next (idx + 1) s
          else unknown_line idx s line
termination_by structural fuel => fuel

/-- The `while (eval_condition(cond)) execute(...)` loop (englang.c:581-583). -/
def while_loop : Nat → List String → String → Nat → Nat → State → RunRes
  | 0, _, _, _, _, _ => .nofuel
  | fuel + 1, prog, cond, bs, be, s =>
    if eval_condition s.vars cond then
      match execute fuel prog bs be s with
      | .done s1 => while_loop fuel prog cond bs be s1
      | .exited c s1 => .exited c s1
      | .nofuel => .nofuel
    else .done s
termination_by structural fuel => fuel

/-- The `for (i = 0; i < n; i++) execute(...)` loop of `repeat`
(englang.c:591-592). -/
def repeat_loop : Nat → List String → Nat → Nat → Nat → State → RunRes
  | 0, _, _, _, _, _ => .nofuel
  | _ + 1, _, 0, _, _, s => .done s
  | fuel + 1, prog, n + 1, bs, be, s =>
    match execute fuel prog bs be s with
    | .done s1 => repeat_loop fuel prog n bs be s1
    | .exited c s1 => .exited c s1
    | .nofuel => .nofuel
termination_by structural fuel => fuel

/-- The counting loop of `for` (englang.c:607-617): the loop variable's `num`
field is set to the counter before each body run; a positive step iterates
while `d ≤ to`, otherwise while `d ≥ to`. -/
def for_loop : Nat → List String → String → ℚ → ℚ → ℚ → Nat → Nat → State → RunRes
  | 0, _, _, _, _, _, _, _, _ => .nofuel
  | fuel + 1, prog, name, d, tov, stepv, bs, be, s =>
    if (if 0 < stepv then d ≤ tov else tov ≤ d) then
      let s1 := { s with vars := var_upd s.vars name (fun v => { v with num := d }) }
      match execute fuel prog bs be s1 with
      | .done s2 => for_loop fuel prog name (d + stepv) tov stepv bs be s2
      | .exited c s2 => .exited c s2
      | .nofuel => .nofuel
    else .done s
termination_by structural fuel => fuel

end

/- ──────────────────────── Pre-pass and entry point (englang.c:831-857, 873-925) ──────────────────────── -/

/-- The scanning loop of `collect_funcs` (englang.c:831-857): every line whose
trimmed text tokenizes to `define …` with at least 3 tokens registers a
function and the scan resumes just past its `end define`.  The fuel
`prog.length + 1` always suffices since the index strictly increases. -/
def collect_go (prog : List String) : Nat → Nat → List FuncDef → List FuncDef
  | 0, _, acc => acc
  | n + 1, i, acc =>
    if i < prog.length then
      let tok := tokenize (line_at prog i)
      if 3 ≤ tok.length ∧ tok.getD 0 "" = "define" then
        let e := find_end prog i "end define"
        collect_go prog n (e + 1) (acc ++ [parse_def tok i e])
      else collect_go prog n (i + 1) acc
    else acc

/-- `collect_funcs` (englang.c:831-857). -/
def collect_funcs (prog : List String) : List FuncDef :=
  collect_go prog (prog.length + 1) 0 []

/-- The zeroed start state of `main` (englang.c:917-919). -/
def init_st (inp : List String) (funcs : List FuncDef) : State :=
  { vars := [], arrays := [], funcs := funcs, stack := [], mem := [],
    input := inp, output := "", errput := "" }

/-- `main` after loading (englang.c:921-923): pre-pass then
`execute(0, line_count)`. -/
def run_prog (fuel : Nat) (prog : List String) (inp : List String) : RunRes :=
  execute fuel prog 0 prog.length (init_st inp (collect_funcs prog))

/- ──────────────────────── Observation helpers ──────────────────────── -/

/-- The numeric value a variable currently holds (`none` when the variable is
absent or holds text). -/
def var_num (s : State) (n : String) : Option ℚ :=
  match find_var s.vars n with
  | some v => (match v.type with | .num => some v.num | .str => none)
  | none => none

/-- The stdout accumulated by a finished run (`none` when the modelling fuel
ran out). -/
def out_of : RunRes → Option String
  | .done s => some s.output
  | .exited _ s => some s.output
  | .nofuel => none

/- ──────────────────────── Claim-side definitions ──────────────────────── -/

/-- Modelled from the spec's wording for the Block Resolver (§4.4 / claim C4):
scan forward maintaining a depth counter starting at 1; depth increases
exactly on lines beginning (after trimming, as everywhere in the interpreter)
with `if `, `while `, `repeat ` or `define ` — not `for ` — and decreases on
any line beginning with `end `; return the first index where depth reaches 0,
or the program length when it never does. -/
def fe_claim_scan (lc : Nat) : List String → Nat → Nat → Nat
  | [], _, _ => lc
  | l :: rest, i, depth =>
    let t := trim l
    let d1 :=
      if startswith t "if " ∨ startswith t "while " ∨ startswith t "repeat " ∨
         startswith t "define " then depth + 1 else depth
    let d2 := if startswith t "end " then d1 - 1 else d1
    if d2 = 0 then i else fe_claim_scan lc rest (i + 1) d2

/-- The claim-side block resolver built from `fe_claim_scan`. -/
def find_end_claim (prog : List String) (here : Nat) : Nat :=
  fe_claim_scan prog.length (prog.drop (here + 1)) (here + 1) 1

/-- The claim-side rendering of a `print`/`say` argument list: the resolved
display text of the tokens that are not the literal word `and`, in order. -/
def print_args (vars : List (String × Value)) (rest : List String) : List String :=
  (rest.filter (fun t => ¬ t = "and")).map (resolve_str vars)

/- ──────────────────────── Concrete programs and states ──────────────────────── -/

/-- A state whose array `a` already holds its fixed capacity of
`MAX_ARRAY_SIZE = 1024` elements. -/
def full_arr_st : State :=
  { init_st [] [] with arrays := [("a", List.replicate 1024 default_val)] }

def prog_append_full : List String := ["append 5 to array a"]

def prog_define : List String := ["define f as", "end define"]

/-- The state `main` reaches after the pre-pass over `prog_define`. -/
def define_st : State := init_st [] (collect_funcs prog_define)

def prog_if_inline : List String :=
  ["if 5 is greater than 3 then print \"yes\" otherwise print \"no\" end if"]

def prog_if_multi : List String :=
  ["if 5 is greater than 3 then", "print \"yes\"", "otherwise", "print \"no\"", "end if"]

def prog_stack : List String :=
  ["push 1 onto stack", "push 2 onto stack", "pop from stack into a",
   "pop from stack into b", "pop from stack into c"]

def prog_div_zero : List String := ["divide 5 by 0 into q"]

def prog_set_div_zero : List String := ["set x to 5 divided by 0"]

def prog_print_hi : List String := ["print hi"]

def prog_say_hi : List String := ["say hi"]

def prog_ask_no_into : List String := ["ask name please now"]

/-- A start state with one pending stdin line, to observe that a malformed
`ask` reads nothing. -/
def ask_wit_st : State := init_st ["42"] []

/- ════════════════════════ Supporting lemmas ════════════════════════ -/

theorem find_var_upd_self (n : String) (f : Value → Value) :
    ∀ (vs : List (String × Value)) (v : Value), find_var vs n = some v →
      find_var (var_upd vs n f) n = some (f v) := by
  intro vs
  induction vs with
  | nil => intro v h; simp [find_var] at h
  | cons p rest ih =>
    obtain ⟨pn, pv⟩ := p
    intro v h
    by_cases hp : pn = n
    · simp only [find_var, var_upd, if_pos hp] at h ⊢
      cases h
      simp [find_var, hp]
    · simp only [find_var, var_upd, if_neg hp] at h ⊢
      exact ih v h

theorem find_var_append_none (n : String) (e : Value) :
    ∀ (vs : List (String × Value)), find_var vs n = none →
      find_var (vs ++ [(n, e)]) n = some e := by
  intro vs
  induction vs with
  | nil => intro h; simp [find_var]
  | cons p rest ih =>
    obtain ⟨pn, pv⟩ := p
    intro h
    by_cases hp : pn = n
    · simp [find_var, hp] at h
    · simp only [find_var, if_neg hp] at h
      simp only [List.cons_append, find_var, if_neg hp]
      exact ih h

theorem find_var_append_some (t n : String) (e : Value) :
    ∀ (vs : List (String × Value)) (v : Value), find_var vs t = some v →
      find_var (vs ++ [(n, e)]) t = some v := by
  intro vs
  induction vs with
  | nil => intro v h; simp [find_var] at h
  | cons p rest ih =>
    obtain ⟨pn, pv⟩ := p
    intro v h
    by_cases hp : pn = t
    · simp only [find_var, if_pos hp] at h
      simp [find_var, hp, h]
    · simp only [find_var, if_neg hp] at h
      simp only [List.cons_append, find_var, if_neg hp]
      exact ih v h

theorem find_var_append_of_ne (t n : String) (e : Value) (hne : ¬ n = t) :
    ∀ (vs : List (String × Value)), find_var (vs ++ [(n, e)]) t = find_var vs t := by
  intro vs
  induction vs with
  | nil => simp [find_var, if_neg hne]
  | cons p rest ih =>
    obtain ⟨pn, pv⟩ := p
    by_cases hp : pn = t
    · simp [find_var, hp]
    · simp only [List.cons_append, find_var, if_neg hp]
      exact ih

/-- Appending a fresh zero-initialised slot never changes a numeric
resolution: resolutions that hit a literal or an existing variable are
untouched, and a token that fell back to text (numeric projection 0) can at
most start resolving to the new slot's stored 0. -/
theorem resolve_num_append_default (vs : List (String × Value)) (n t : String) :
    resolve_num (vs ++ [(n, default_val)]) t = resolve_num vs t := by
  unfold resolve_num resolve
  by_cases hq : t.data.headD '\x00' = '"'
  · rw [if_pos hq, if_pos hq]
  · rw [if_neg hq, if_neg hq]
    cases hs : strtod_full t with
    | some d => simp
    | none =>
      cases hv : find_var vs t with
      | some v => rw [find_var_append_some t n default_val vs v hv]
      | none =>
        by_cases htn : n = t
        · subst htn
          rw [find_var_append_none n default_val vs hv]
          simp [default_val]
        · rw [find_var_append_of_ne t n default_val htn vs, hv]

theorem startswith_trans {t kw pre : String} (h1 : startswith kw pre = true)
    (h2 : startswith t kw = true) : startswith t pre = true := by
  unfold startswith at *
  rw [List.isPrefixOf_iff_prefix] at *
  exact h1.trans h2

theorem fe_scan_eq_claim (kw : String) (h : startswith kw "end " = true) (lc : Nat)
    (ls : List String) :
    ∀ (i depth : Nat), fe_scan lc kw ls i depth = fe_claim_scan lc ls i depth := by
  induction ls with
  | nil => intro i depth; rfl
  | cons l rest ih =>
    intro i depth
    have hiff : (startswith (trim l) kw = true ∨ startswith (trim l) "end " = true) ↔
        (startswith (trim l) "end " = true) :=
      ⟨fun h2 => h2.elim (fun a => startswith_trans h a) id, Or.inr⟩
    simp only [fe_scan, fe_claim_scan, hiff]
    split <;> split <;> split <;> first | rfl | exact ih _ _

theorem find_kw_mem_dropLast (kw : String) :
    ∀ (l : List String) (j : Nat), find_kw kw l = some j → j + 1 < l.length →
      kw ∈ l.dropLast := by
  intro l
  induction l with
  | nil => intro j h; simp [find_kw] at h
  | cons t rest ih =>
    intro j h hj
    by_cases ht : t = kw
    · subst ht
      cases rest with
      | nil => simp at hj
      | cons a as2 => simp [List.dropLast]
    · simp only [find_kw, if_neg ht] at h
      match hfk : find_kw kw rest with
      | none => rw [hfk] at h; simp at h
      | some j2 =>
        rw [hfk] at h
        have hj' : j2 + 1 = j := by simpa using h
        have hrest : rest ≠ [] := by
          cases rest with
          | nil => simp [find_kw] at hfk
          | cons _ _ => simp
        have hj2 : j2 + 1 < rest.length := by
          simp only [List.length_cons] at hj
          omega
        have := ih j2 hfk hj2
        cases rest with
        | nil => simp at hrest
        | cons a as2 =>
          simp [List.dropLast] at this ⊢
          right
          exact this

theorem find_func_append_of_isSome (n2 : String) (f : FuncDef) :
    ∀ (fs : List FuncDef), (find_func fs n2).isSome = true →
      find_func (fs ++ [f]) n2 = find_func fs n2 := by
  intro fs
  induction fs with
  | nil => intro h; simp [find_func] at h
  | cons g rest ih =>
    intro h
    by_cases hg : g.name = n2
    · simp [find_func, hg]
    · simp only [find_func, if_neg hg] at h
      simp only [List.cons_append, find_func, if_neg hg]
      exact ih h

theorem print_join_spec (vars : List (String × Value)) :
    ∀ (rest : List String) (first : Bool),
      print_join vars rest first =
        (if first then "" else if print_args vars rest = [] then "" else " ") ++
          join_sp (print_args vars rest) := by
  intro rest
  induction rest with
  | nil => intro first; cases first <;> simp [print_join, print_args, join_sp]
  | cons t r ih =>
    intro first
    by_cases ht : t = "and"
    · simp only [print_join, if_pos ht, print_args, List.filter_cons, ht, decide_not]
      simp only [print_args] at ih
      rw [ih first]
      simp [List.filter_cons]
    · have hfil : print_args vars (t :: r) = resolve_str vars t :: print_args vars r := by
        simp [print_args, List.filter_cons, ht]
      simp only [print_join, if_neg ht]
      rw [ih false, hfil]
      cases hpa : print_args vars r with
      | nil =>
        simp only [if_pos rfl, join_sp]
        cases first <;> simp [String.append_empty, String.empty_append]
      | cons y ys =>
        have hne : ¬ (y :: ys) = ([] : List String) := by simp
        simp only [if_neg hne, join_sp]
        cases first <;> simp [String.empty_append, String.append_assoc]

theorem say_join_spec (vars : List (String × Value)) :
    ∀ (rest : List String),
      say_join vars rest =
        join_sp (print_args vars rest) ++
          (if print_args vars rest = [] then "" else " ") := by
  intro rest
  induction rest with
  | nil => simp [say_join, print_args, join_sp, String.append_empty]
  | cons t r ih =>
    by_cases ht : t = "and"
    · simp only [say_join, if_pos ht, print_args, List.filter_cons, ht, decide_not]
      simp only [print_args] at ih
      rw [ih]
      simp [List.filter_cons]
    · have hfil : print_args vars (t :: r) = resolve_str vars t :: print_args vars r := by
        simp [print_args, List.filter_cons, ht]
      simp only [say_join, if_neg ht]
      rw [ih, hfil]
      cases hpa : print_args vars r with
      | nil =>
        simp [join_sp, String.append_empty, String.empty_append]
      | cons y ys =>
        have hne : ¬ (y :: ys) = ([] : List String) := by simp
        simp only [if_neg hne, join_sp]
        simp [String.append_assoc]

/-- `divide <a> by <b> into <q>` with a zero divisor: `q` receives `Number(0)`,
execution continues at the next line and the streams are untouched. -/
theorem div_zero_part1 (fuel : Nat) (prog : List String) (idx : Nat) (s : State)
    (a b q : String)
    (hne : ¬ line_at prog idx = "")
    (hc1 : startswith (line_at prog idx) "#" = false)
    (hc2 : startswith (line_at prog idx) "//" = false)
    (htok : tokenize (line_at prog idx) = ["divide", a, "by", b, "into", q])
    (hb : resolve_num s.vars b = 0)
    (hcap : s.vars.length < 512) :
    ∃ s2 : State, exec_line (fuel + 1) prog idx s = .next (idx + 1) s2 ∧
      var_num s2 q = some 0 ∧ s2.output = s.output ∧ s2.errput = s.errput ∧
      s2.input = s.input ∧ s2.stack = s.stack := by
  rw [exec_line]
  rw [if_neg (by simp [hne, hc1, hc2])]
  rw [htok]
  simp only []
  rw [if_pos (by simp)]
  unfold exec_divide
  simp only [List.getD_cons_succ, List.getD_cons_zero]
  cases hv : find_var s.vars q with
  | some v =>
    have hg : get_or_create s.vars q = some s.vars := by simp [get_or_create, hv]
    rw [hg]
    simp only []
    rw [hb]
    simp only [not_true, if_false, ite_false]
    refine ⟨_, rfl, ?_, rfl, rfl, rfl, rfl⟩
    have h1 := find_var_upd_self q (fun v => { v with type := .num }) s.vars v hv
    have h2 := find_var_upd_self q (fun v => { v with num := (0 : ℚ) })
      (var_upd s.vars q (fun v => { v with type := .num })) _ h1
    unfold var_num
    rw [h2]
  | none =>
    have hg : get_or_create s.vars q = some (s.vars ++ [(q, default_val)]) := by
      simp [get_or_create, hv, hcap]
    rw [hg]
    simp only []
    rw [resolve_num_append_default s.vars q b, hb]
    simp only [not_true, if_false, ite_false]
    refine ⟨_, rfl, ?_, rfl, rfl, rfl, rfl⟩
    have h0 : find_var (s.vars ++ [(q, default_val)]) q = some default_val :=
      find_var_append_none q default_val s.vars hv
    have h1 := find_var_upd_self q (fun v => { v with type := .num }) _ _ h0
    have h2 := find_var_upd_self q (fun v => { v with num := (0 : ℚ) }) _ _ h1
    unfold var_num
    rw [h2]

/-- `set <x> to <a> divided by <b>` with a zero divisor: `x` receives
`Number(0)`, execution continues, streams untouched. -/
theorem div_zero_part2 (fuel : Nat) (prog : List String) (idx : Nat) (s : State)
    (x a b : String)
    (hne : ¬ line_at prog idx = "")
    (hc1 : startswith (line_at prog idx) "#" = false)
    (hc2 : startswith (line_at prog idx) "//" = false)
    (htok : tokenize (line_at prog idx) = ["set", x, "to", a, "divided", "by", b])
    (hb : resolve_num s.vars b = 0)
    (hcap : s.vars.length < 512) :
    ∃ s2 : State, exec_line (fuel + 1) prog idx s = .next (idx + 1) s2 ∧
      var_num s2 x = some 0 ∧ s2.output = s.output ∧ s2.errput = s.errput ∧
      s2.input = s.input ∧ s2.stack = s.stack := by
  rw [exec_line]
  rw [if_neg (by simp [hne, hc1, hc2])]
  rw [htok]
  simp only []
  rw [if_pos (by simp)]
  unfold exec_set
  simp only [List.getD_cons_succ, List.getD_cons_zero, List.length_cons, List.length_nil]
  have hcond1 : (("divided" : String) = "plus" ∧ 6 ≤ 0+1+1+1+1+1+1+1) = False := by simp
  have hcond2 : (("divided" : String) = "minus" ∧ 6 ≤ 0+1+1+1+1+1+1+1) = False := by simp
  have hcond3 : (("divided" : String) = "times" ∧ 6 ≤ 0+1+1+1+1+1+1+1) = False := by simp
  have hcond4 : (("divided" : String) = "divided" ∧ 7 ≤ 0+1+1+1+1+1+1+1 ∧
    ("by" : String) = "by") = True := by simp
  have hcond0 : (4 < 0+1+1+1+1+1+1+1) = True := by simp
  have hcond5 : (True ∧ 7 ≤ 0+1+1+1+1+1+1+1 ∧ True) = True := by simp
  simp only [hcond0, hcond1, hcond2, hcond3, hcond4, hcond5, if_true, if_false]
  cases hv : find_var s.vars x with
  | some v =>
    have hg : get_or_create s.vars x = some s.vars := by simp [get_or_create, hv]
    rw [hg]
    simp only []
    rw [hb]
    simp only [not_true, if_false, ite_false]
    refine ⟨_, rfl, ?_, rfl, rfl, rfl, rfl⟩
    have h1 := find_var_upd_self x
      (fun _ => { type := VType.num, num := (0 : ℚ), str := (resolve s.vars a).str }) s.vars v hv
    unfold var_num
    rw [h1]
  | none =>
    have hg : get_or_create s.vars x = some (s.vars ++ [(x, default_val)]) := by
      simp [get_or_create, hv, hcap]
    rw [hg]
    simp only []
    rw [resolve_num_append_default s.vars x b, hb]
    simp only [not_true, if_false, ite_false]
    refine ⟨_, rfl, ?_, rfl, rfl, rfl, rfl⟩
    have h0 : find_var (s.vars ++ [(x, default_val)]) x = some default_val :=
      find_var_append_none x default_val s.vars hv
    have h1 := find_var_upd_self x
      (fun _ => { type := VType.num, num := (0 : ℚ),
                  str := (resolve (s.vars ++ [(x, default_val)]) a).str })
      _ _ h0
    unfold var_num
    rw [h1]

/-- A `print` line appends the space-joined resolved texts (skipping literal
`and`) and a newline to stdout. -/
theorem print_line_out (fuel : Nat) (prog : List String) (idx : Nat) (s : State)
    (rest : List String)
    (hne : ¬ line_at prog idx = "")
    (hc1 : startswith (line_at prog idx) "#" = false)
    (hc2 : startswith (line_at prog idx) "//" = false)
    (htok : tokenize (line_at prog idx) = "print" :: rest) :
    exec_line (fuel + 1) prog idx s =
      .next (idx + 1)
        { s with output := s.output ++ (join_sp (print_args s.vars rest) ++ "\n") } := by
  rw [exec_line]
  rw [if_neg (by simp [hne, hc1, hc2])]
  rw [htok]
  simp only []
  unfold exec_print
  simp only [List.drop_succ_cons, List.drop_zero]
  rw [print_join_spec s.vars rest true]
  simp [String.empty_append]

/-- A `say` line appends the same space-joined text but with one extra space
after every emitted token, hence a trailing space before the newline whenever
at least one token is printed. -/
theorem say_line_out (fuel : Nat) (prog : List String) (idx : Nat) (s : State)
    (rest : List String)
    (hne : ¬ line_at prog idx = "")
    (hc1 : startswith (line_at prog idx) "#" = false)
    (hc2 : startswith (line_at prog idx) "//" = false)
    (htok : tokenize (line_at prog idx) = "say" :: rest) :
    exec_line (fuel + 1) prog idx s =
      .next (idx + 1)
        { s with output := s.output ++
            ((join_sp (print_args s.vars rest) ++
              (if print_args s.vars rest = [] then "" else " ")) ++ "\n") } := by
  rw [exec_line]
  rw [if_neg (by simp [hne, hc1, hc2])]
  rw [htok]
  simp only []
  unfold exec_say
  simp only [List.drop_succ_cons, List.drop_zero]
  rw [say_join_spec s.vars rest]

/- ════════════════════════ Claims ════════════════════════ -/

/-- C1 (counterexample): with array `a` already at its fixed capacity of 1024
elements, `append 5 to array a` does NOT terminate the process — it returns
control to the next line with the state (contents, size, streams) completely
unchanged, refuting the claimed fatal resource error. -/
theorem append_at_capacity_no_exit :
    (find_array full_arr_st.arrays "a").map List.length = some 1024 ∧
    exec_line 1 prog_append_full 0 full_arr_st = .next 1 full_arr_st := by
  constructor
  · with_unfolding_all decide
  · with_unfolding_all decide

/-- C1 (amended): when the named array already holds at least
`MAX_ARRAY_SIZE = 1024` elements, `append <value> to array <name>` is a
silent no-op: execution continues at the next line with the whole state —
array contents and size included — unchanged, and no diagnostic or
termination occurs. -/
theorem append_at_capacity_is_noop (fuel : Nat) (prog : List String) (idx : Nat)
    (s : State) (v name : String) (data : List Value)
    (hne : ¬ line_at prog idx = "")
    (hc1 : startswith (line_at prog idx) "#" = false)
    (hc2 : startswith (line_at prog idx) "//" = false)
    (htok : tokenize (line_at prog idx) = ["append", v, "to", "array", name])
    (hfound : find_array s.arrays name = some data)
    (hfull : 1024 ≤ data.length) :
    exec_line (fuel + 1) prog idx s = .next (idx + 1) s := by
  rw [exec_line]
  rw [if_neg (by simp [hne, hc1, hc2])]
  rw [htok]
  simp only []
  rw [if_pos (by simp)]
  unfold exec_append
  simp only [List.getD_cons_succ, List.getD_cons_zero]
  have hg : get_or_create_arr s.arrays name = some s.arrays := by
    simp [get_or_create_arr, hfound]
  rw [hg]
  simp only [hfound, Option.getD_some]
  rw [if_neg (by omega)]

/-- C1 (witness): the amended theorem applied to the concrete full array. -/
theorem append_at_capacity_is_noop_witness :
    exec_line 1 prog_append_full 0 full_arr_st = .next 1 full_arr_st :=
  append_at_capacity_is_noop 0 prog_append_full 0 full_arr_st "5" "a"
    (List.replicate 1024 default_val)
    (by with_unfolding_all decide) (by with_unfolding_all decide)
    (by with_unfolding_all decide) (by with_unfolding_all decide)
    (by with_unfolding_all decide) (by with_unfolding_all decide)

/-- C2 (counterexample): after the pre-pass has registered `f`, re-executing
the `define` line at run time appends a second entry for `f` to the Function
Table (`funcs[func_count++]` has no presence check), so the table is NOT left
unchanged. -/
theorem runtime_define_grows_table :
    define_st.funcs = [{ name := "f", start_line := 1, end_line := 1, params := [] }] ∧
    exec_line 1 prog_define 0 define_st =
      .next 2 { define_st with
        funcs := define_st.funcs ++
          [{ name := "f", start_line := 1, end_line := 1, params := [] }] } := by
  constructor
  · with_unfolding_all decide
  · with_unfolding_all decide

/-- C2 (amended): reaching a `define` line at run time skips execution to just
past the matched `end define` and leaves variables, arrays and streams
untouched, but it appends one more (duplicate, shadowed) entry to the
Function Table; lookups of names that were already present are unaffected
because `find_func` returns the first match. -/
theorem runtime_define_skips_and_appends (fuel : Nat) (prog : List String) (idx : Nat)
    (s : State) (name : String) (rest : List String)
    (hne : ¬ line_at prog idx = "")
    (hc1 : startswith (line_at prog idx) "#" = false)
    (hc2 : startswith (line_at prog idx) "//" = false)
    (htok : tokenize (line_at prog idx) = "define" :: name :: rest)
    (hnn : ¬ rest = []) :
    ∃ s2 : State,
      exec_line (fuel + 1) prog idx s = .next (find_end prog idx "end define" + 1) s2 ∧
      s2.funcs.length = s.funcs.length + 1 ∧
      (∀ n2 : String, (find_func s.funcs n2).isSome = true →
        find_func s2.funcs n2 = find_func s.funcs n2) ∧
      s2.vars = s.vars ∧ s2.arrays = s.arrays ∧ s2.output = s.output ∧
      s2.errput = s.errput := by
  rw [exec_line]
  rw [if_neg (by simp [hne, hc1, hc2])]
  rw [htok]
  simp only []
  rw [if_pos (by cases rest with | nil => simp at hnn | cons _ _ => simp)]
  unfold exec_define
  refine ⟨_, rfl, by simp, ?_, rfl, rfl, rfl, rfl⟩
  intro n2 h
  exact find_func_append_of_isSome n2 _ s.funcs h

/-- C2 (witness): the amended theorem applied to the concrete two-line
program after its pre-pass. -/
theorem runtime_define_skips_and_appends_witness :
    ∃ s2 : State,
      exec_line 1 prog_define 0 define_st =
        .next (find_end prog_define 0 "end define" + 1) s2 ∧
      s2.funcs.length = define_st.funcs.length + 1 ∧
      (∀ n2 : String, (find_func define_st.funcs n2).isSome = true →
        find_func s2.funcs n2 = find_func define_st.funcs n2) ∧
      s2.vars = define_st.vars ∧ s2.arrays = define_st.arrays ∧
      s2.output = define_st.output ∧ s2.errput = define_st.errput :=
  runtime_define_skips_and_appends 0 prog_define 0 define_st "f" ["as"]
    (by with_unfolding_all decide) (by with_unfolding_all decide)
    (by with_unfolding_all decide) (by with_unfolding_all decide)
    (by with_unfolding_all decide)

/-- C3 (counterexample): the spec's example written as a complete ONE-line
program produces no output at all — the `if` handler only executes the block
of FOLLOWING lines, and the inline `print "yes"` text after `then` is never
executed; the run ends in the unchanged start state. -/
theorem if_example_one_line_prints_nothing :
    run_prog 4 prog_if_inline [] = .done (init_st [] []) ∧
    out_of (run_prog 4 prog_if_inline []) = some "" := by
  constructor
  · with_unfolding_all decide
  · with_unfolding_all decide

/-- C3 (amended): the same example laid out across five lines —
`if 5 is greater than 3 then` / `print "yes"` / `otherwise` / `print "no"` /
`end if` — outputs `yes` (the one-line form outputs nothing, see the
counterexample). -/
theorem if_example_five_lines_prints_yes :
    out_of (run_prog 10 prog_if_multi []) = some "yes\n" := by
  with_unfolding_all decide

/-- C4: `find_end` agrees exactly with the claim's description for every
program, every opening index and every end keyword of the form `end …`:
depth starts at 1, rises exactly on trimmed lines beginning with `if `,
`while `, `repeat ` or `define ` (not `for `), falls on any line beginning
with `end `, and the first index where depth reaches 0 — or the program
length — is returned. -/
theorem find_end_matches_claimed_scan (kw : String) (prog : List String) (here : Nat)
    (h : startswith kw "end " = true) :
    find_end prog here kw = find_end_claim prog here := by
  unfold find_end find_end_claim
  exact fe_scan_eq_claim kw h _ _ _ _

/-- C4 (witness): the equivalence at a concrete nested program and keyword. -/
theorem find_end_matches_claimed_scan_witness :
    startswith "end while" "end " = true ∧
    find_end ["while x is zero then", "if y is zero then", "end if",
      "for i from 1 to 3 then", "end for", "end while"] 0 "end while" =
    find_end_claim ["while x is zero then", "if y is zero then", "end if",
      "for i from 1 to 3 then", "end for", "end while"] 0 :=
  ⟨by with_unfolding_all decide,
   find_end_matches_claimed_scan "end while"
     ["while x is zero then", "if y is zero then", "end if",
      "for i from 1 to 3 then", "end for", "end while"] 0
     (by with_unfolding_all decide)⟩

/-- C5: dividing by a token that resolves numerically to 0 stores `Number(0)`
into the target, does not terminate the program, and emits nothing on either
stream — both for `divide <a> by <b> into <q>` and for
`set <x> to <a> divided by <b>`.  (The variable table is assumed to have a
free slot; a full table is the separate fatal resource error of §7.) -/
theorem divide_by_zero_stores_zero :
    (∀ (fuel : Nat) (prog : List String) (idx : Nat) (s : State) (a b q : String),
      ¬ line_at prog idx = "" →
      startswith (line_at prog idx) "#" = false →
      startswith (line_at prog idx) "//" = false →
      tokenize (line_at prog idx) = ["divide", a, "by", b, "into", q] →
      resolve_num s.vars b = 0 →
      s.vars.length < 512 →
      ∃ s2 : State, exec_line (fuel + 1) prog idx s = .next (idx + 1) s2 ∧
        var_num s2 q = some 0 ∧ s2.output = s.output ∧ s2.errput = s.errput ∧
        s2.input = s.input ∧ s2.stack = s.stack) ∧
    (∀ (fuel : Nat) (prog : List String) (idx : Nat) (s : State) (x a b : String),
      ¬ line_at prog idx = "" →
      startswith (line_at prog idx) "#" = false →
      startswith (line_at prog idx) "//" = false →
      tokenize (line_at prog idx) = ["set", x, "to", a, "divided", "by", b] →
      resolve_num s.vars b = 0 →
      s.vars.length < 512 →
      ∃ s2 : State, exec_line (fuel + 1) prog idx s = .next (idx + 1) s2 ∧
        var_num s2 x = some 0 ∧ s2.output = s.output ∧ s2.errput = s.errput ∧
        s2.input = s.input ∧ s2.stack = s.stack) :=
  ⟨div_zero_part1, div_zero_part2⟩

/-- C5 (witness): `divide 5 by 0 into q` and `set x to 5 divided by 0` on the
empty start state. -/
theorem divide_by_zero_stores_zero_witness :
    (∃ s2 : State, exec_line 1 prog_div_zero 0 (init_st [] []) = .next 1 s2 ∧
      var_num s2 "q" = some 0 ∧ s2.output = (init_st [] []).output ∧
      s2.errput = (init_st [] []).errput ∧ s2.input = (init_st [] []).input ∧
      s2.stack = (init_st [] []).stack) ∧
    (∃ s2 : State, exec_line 1 prog_set_div_zero 0 (init_st [] []) = .next 1 s2 ∧
      var_num s2 "x" = some 0 ∧ s2.output = (init_st [] []).output ∧
      s2.errput = (init_st [] []).errput ∧ s2.input = (init_st [] []).input ∧
      s2.stack = (init_st [] []).stack) :=
  ⟨divide_by_zero_stores_zero.1 0 prog_div_zero 0 (init_st [] []) "5" "0" "q"
     (by with_unfolding_all decide) (by with_unfolding_all decide)
     (by with_unfolding_all decide) (by with_unfolding_all decide)
     (by with_unfolding_all decide) (by with_unfolding_all decide),
   divide_by_zero_stores_zero.2 0 prog_set_div_zero 0 (init_st [] []) "x" "5" "0"
     (by with_unfolding_all decide) (by with_unfolding_all decide)
     (by with_unfolding_all decide) (by with_unfolding_all decide)
     (by with_unfolding_all decide) (by with_unfolding_all decide)⟩

/-- C6: from the empty stack, `push 1`, `push 2`, then three pops yield
`a = 2`, `b = 1` (LIFO order) and `c = 0` from the now-empty stack; the final
state holds exactly those three number variables and an empty stack. -/
theorem stack_push_pop_lifo :
    run_prog 10 prog_stack [] =
      .done { init_st [] [] with vars :=
        [("a", { type := .num, num := 2, str := "" }),
         ("b", { type := .num, num := 1, str := "" }),
         ("c", { type := .num, num := 0, str := "" })] } := by
  with_unfolding_all decide

/-- C7 (counterexample): `print hi` outputs `hi\n` but `say hi` outputs
`hi \n` — `say` emits a space after every token, so the two statements do NOT
produce identical output for identical arguments. -/
theorem print_say_outputs_differ :
    out_of (run_prog 3 prog_print_hi []) = some "hi\n" ∧
    out_of (run_prog 3 prog_say_hi []) = some "hi \n" ∧
    ¬ ("hi\n" : String) = "hi \n" := by
  refine ⟨?_, ?_, ?_⟩ <;> with_unfolding_all decide

/-- C7 (amended): both statements resolve the tokens after the keyword in
order, skip tokens equal to the literal word `and`, and end with a newline;
`print` joins the resolved texts with single spaces, while `say` additionally
emits a space after every token, so its line carries one trailing space
whenever at least one token is printed (the outputs coincide only for an
empty argument list). -/
theorem print_say_space_join_semantics :
    (∀ (fuel : Nat) (prog : List String) (idx : Nat) (s : State) (rest : List String),
      ¬ line_at prog idx = "" →
      startswith (line_at prog idx) "#" = false →
      startswith (line_at prog idx) "//" = false →
      tokenize (line_at prog idx) = "print" :: rest →
      exec_line (fuel + 1) prog idx s =
        .next (idx + 1)
          { s with output := s.output ++ (join_sp (print_args s.vars rest) ++ "\n") }) ∧
    (∀ (fuel : Nat) (prog : List String) (idx : Nat) (s : State) (rest : List String),
      ¬ line_at prog idx = "" →
      startswith (line_at prog idx) "#" = false →
      startswith (line_at prog idx) "//" = false →
      tokenize (line_at prog idx) = "say" :: rest →
      exec_line (fuel + 1) prog idx s =
        .next (idx + 1)
          { s with output := s.output ++
              ((join_sp (print_args s.vars rest) ++
                (if print_args s.vars rest = [] then "" else " ")) ++ "\n") }) :=
  ⟨print_line_out, say_line_out⟩

/-- C7 (witness): the amended theorem applied to `print hi` and `say hi`. -/
theorem print_say_space_join_semantics_witness :
    exec_line 1 prog_print_hi 0 (init_st [] []) =
      .next 1 { init_st [] [] with output :=
        (init_st [] []).output ++ (join_sp (print_args (init_st [] []).vars ["hi"]) ++ "\n") } ∧
    exec_line 1 prog_say_hi 0 (init_st [] []) =
      .next 1 { init_st [] [] with output :=
        (init_st [] []).output ++
          ((join_sp (print_args (init_st [] []).vars ["hi"]) ++
            (if print_args (init_st [] []).vars ["hi"] = [] then "" else " ")) ++ "\n") } :=
  ⟨print_say_space_join_semantics.1 0 prog_print_hi 0 (init_st [] []) ["hi"]
     (by with_unfolding_all decide) (by with_unfolding_all decide)
     (by with_unfolding_all decide) (by with_unfolding_all decide),
   print_say_space_join_semantics.2 0 prog_say_hi 0 (init_st [] []) ["hi"]
     (by with_unfolding_all decide) (by with_unfolding_all decide)
     (by with_unfolding_all decide) (by with_unfolding_all decide)⟩

/-- C9: any condition whose trimmed text splits into fewer than three
space/tab-separated words evaluates to false, before any `is`/operator
parsing is attempted — content, including a literal `is`, is irrelevant. -/
theorem short_condition_is_false (vars : List (String × Value)) (cond : String)
    (h : (split_st (trim cond)).length < 3) : eval_condition vars cond = false := by
  unfold eval_condition
  rw [if_pos]
  have := List.length_take 32 (split_st (trim cond))
  omega

/-- C9 (witness): the two-word condition `x is` — which does contain `is` —
is false. -/
theorem short_condition_is_false_witness :
    (split_st (trim "x is")).length < 3 ∧ eval_condition [] "x is" = false :=
  ⟨by with_unfolding_all decide,
   short_condition_is_false [] "x is" (by with_unfolding_all decide)⟩

/-- C10: an `ask` line with at least four tokens whose token list contains no
`into` before its last position (no `into` at all, or `into` as the final
token) has no effect whatsoever: no prompt, no read from stdin, no variable
change, no diagnostic — execution continues at the next line with the state
identically unchanged. -/
theorem ask_without_target_is_noop (fuel : Nat) (prog : List String) (idx : Nat)
    (s : State) (rest : List String)
    (hne : ¬ line_at prog idx = "")
    (hc1 : startswith (line_at prog idx) "#" = false)
    (hc2 : startswith (line_at prog idx) "//" = false)
    (htok : tokenize (line_at prog idx) = "ask" :: rest)
    (hlen : 3 ≤ rest.length)
    (hinto : ¬ "into" ∈ rest.dropLast) :
    exec_line (fuel + 1) prog idx s = .next (idx + 1) s := by
  rw [exec_line]
  rw [if_neg (by simp [hne, hc1, hc2])]
  rw [htok]
  simp only []
  rw [if_pos (by simp; omega)]
  unfold exec_ask
  match hfk : find_kw "into" rest with
  | none => simp
  | some j =>
    have hnlt : ¬ (j + 2 < rest.length + 1) := by
      intro hcon
      exact hinto (find_kw_mem_dropLast "into" rest j hfk (by omega))
    simp only [List.length_cons]
    rw [if_neg hnlt]

/-- C10 (witness): `ask name please now` with a pending stdin line — nothing
happens, the pending input included. -/
theorem ask_without_target_is_noop_witness :
    exec_line 1 prog_ask_no_into 0 ask_wit_st = .next 1 ask_wit_st :=
  ask_without_target_is_noop 0 prog_ask_no_into 0 ask_wit_st ["name", "please", "now"]
    (by with_unfolding_all decide) (by with_unfolding_all decide)
    (by with_unfolding_all decide) (by with_unfolding_all decide)
    (by with_unfolding_all decide) (by with_unfolding_all decide)
